import Mathlib

/-!
Verification of the command-execution helper in `gitdata/exectools.py`.

The module defines a class `Exec` with three methods:

* `retry(retries, task_f, check_f, wait_f)` — a bounded retry loop over an
  arbitrary task and success predicate, with an optional inter-attempt
  callback;
* `check_assert(cmd, retries, pollrate, on_retry)` — run a command via
  `gather` up to `retries` times, sleeping and optionally running a
  remediation command between attempts, and assert that the last recorded
  exit status is zero;
* `gather(cmd)` — tokenize the command if it is a string, launch the
  process in the working directory supplied by the directory context, and
  return (rc, stdout, stderr).

The embedding below models external effects (process launches, sleeps, the
directory context) as explicit inputs, and records, for each call, a trace
of the observable events the source performs: how many times each gather
ran, at which loop indices the inter-attempt step ran, and what the final
debug log line reported.
-/

set_option linter.unusedVariables false

deriving instance DecidableEq for Except

namespace Exectools

/-- Exit status treated as success by the source (module constant SUCCESS = 0). -/
def SUCCESS : Int := 0

/-- Result of one completed process run as returned by `gather`: exit
status `rc` and the captured standard output and standard error. -/
structure GatherRes where
  rc : Int
  stdout : String
  stderr : String
  deriving DecidableEq, Repr

/-- The single-quote character. -/
def squoteChar : Char := Char.ofNat 39

/-- The double-quote character. -/
def dquoteChar : Char := Char.ofNat 34

/-- The backslash character. -/
def bslashChar : Char := Char.ofNat 92

/-- Lexer state for POSIX shell-word splitting: outside quotes, right
after a backslash outside quotes, inside single quotes, inside double
quotes, and right after a backslash inside double quotes. -/
inductive LexState where
  | plain
  | plainEsc
  | single
  | double
  | doubleEsc
  deriving DecidableEq

/-- Whitespace characters that separate words. -/
def isWs (c : Char) : Bool :=
  c = ' ' || c = '\t' || c = '\n' || c = '\r'

/-- Close the current word, if one is open, appending it to the output. -/
def flushTok (cur : Option (List Char)) (acc : List String) : List String :=
  match cur with
  | none => acc
  | some t => acc ++ [String.mk t]

/-- Modelled from the spec: POSIX shell-word splitting of a command string
(the standard-library tokenizer shlex.split that the source calls; its
code is not part of this repository). Words are separated by whitespace;
single quotes protect everything up to the closing quote; double quotes
protect everything, except that a backslash inside them escapes a double
quote or a backslash; a backslash outside quotes escapes the next
character. Pipe, redirection and glob characters are ordinary characters.
A quote always opens a word, so empty quotes yield an empty word. -/
def shlexRun : List Char → LexState → Option (List Char) → List String → List String
  | [], _, cur, acc => flushTok cur acc
  | c :: rest, LexState.plain, cur, acc =>
    if isWs c then
      match cur with
      | none => shlexRun rest LexState.plain none acc
      | some t => shlexRun rest LexState.plain none (acc ++ [String.mk t])
    else if c = squoteChar then shlexRun rest LexState.single (some (cur.getD [])) acc
    else if c = dquoteChar then shlexRun rest LexState.double (some (cur.getD [])) acc
    else if c = bslashChar then shlexRun rest LexState.plainEsc (some (cur.getD [])) acc
    else shlexRun rest LexState.plain (some (cur.getD [] ++ [c])) acc
  | c :: rest, LexState.plainEsc, cur, acc =>
    shlexRun rest LexState.plain (some (cur.getD [] ++ [c])) acc
  | c :: rest, LexState.single, cur, acc =>
    if c = squoteChar then shlexRun rest LexState.plain cur acc
    else shlexRun rest LexState.single (some (cur.getD [] ++ [c])) acc
  | c :: rest, LexState.double, cur, acc =>
    if c = dquoteChar then shlexRun rest LexState.plain cur acc
    else if c = bslashChar then shlexRun rest LexState.doubleEsc cur acc
    else shlexRun rest LexState.double (some (cur.getD [] ++ [c])) acc
  | c :: rest, LexState.doubleEsc, cur, acc =>
    if c = dquoteChar || c = bslashChar then
      shlexRun rest LexState.double (some (cur.getD [] ++ [c])) acc
    else shlexRun rest LexState.double (some (cur.getD [] ++ [bslashChar, c])) acc

/-- Modelled from the spec: shlex.split applied to a command string. -/
def shlexSplit (s : String) : List String :=
  shlexRun s.data LexState.plain none []

/-- A command as accepted by the source: either a single shell-syntax
string or a pre-split list of argument strings. -/
inductive Command where
  | str (s : String)
  | args (l : List String)

/-- The normalization at the top of `gather`: a list is used as the
argument vector unchanged; a string is tokenized by shell-word splitting. -/
def normalize : Command → List String
  | Command.str s => shlexSplit s
  | Command.args l => l

/-- Embedding of `Exec.gather`. The behavior of launching a process is the
input `proc`: given the argument vector and the working directory it
yields either a launch failure (executable not found or not startable) or
the completed run. `gather` normalizes the command, resolves the working
directory (passed in as the value the directory context returns), launches
the process on the normalized argument vector directly — no shell is ever
involved — and returns rc, stdout and stderr unchanged, whatever the exit
status; a launch failure propagates to the caller. -/
def gather (proc : List String → String → Except String GatherRes)
    (cwd : String) (cmd : Command) : Except String GatherRes :=
  proc (normalize cmd) cwd

/-- The assertion failure message format used by check_assert. -/
def errMsg (cwd cmdStr stderr : String) : String :=
  "Error running [" ++ cwd ++ "] " ++ cmdStr ++ ".\n" ++ stderr

/-- Modelled from the spec: the assertion collaborator (assertion.success,
whose code is not under src) raises a failure carrying the given message
when the status code is non-zero and returns normally otherwise. -/
def assertionSuccess (status : Int) (msg : String) : Except String Unit :=
  if status = 0 then Except.ok () else Except.error msg

/-- Outcome of `Exec.retry`: a value accepted by the predicate, the
RetryException after giving up (reporting the number the message names),
or an exception raised by the task itself and propagated unchanged. -/
inductive RetryOutcome (ε α : Type) where
  | ok (v : α)
  | exhausted (reported : Nat)
  | raised (e : ε)
  deriving DecidableEq

/-- Trace of one `Exec.retry` call: its outcome, how many times the task
ran, and the attempt indices passed to the wait callback, in order. -/
structure RetryTrace (ε α : Type) where
  outcome : RetryOutcome ε α
  taskCalls : Nat
  waitCalls : List Nat
  deriving DecidableEq

/-- The loop of `Exec.retry`, counting down the remaining iterations of
the loop over range(retries); at every call remaining + attempt equals
retries. `task i` is what the i-th call of task_f does: it returns a value
or raises, and a raise aborts the whole loop. `check` is the success
predicate check_f, and `wait` records whether a wait callback was supplied
(the source guards the callback with a None test and with
attempt < retries - 1). -/
def retryGo (task : Nat → Except ε α) (check : α → Bool) (wait : Bool)
    (retries : Nat) :
    Nat → Nat → Nat → List Nat → RetryTrace ε α
  | 0, _, calls, waits => ⟨RetryOutcome.exhausted retries, calls, waits⟩
  | remaining + 1, attempt, calls, waits =>
    match task attempt with
    | Except.error e => ⟨RetryOutcome.raised e, calls + 1, waits⟩
    | Except.ok ret =>
      if check ret then ⟨RetryOutcome.ok ret, calls + 1, waits⟩
      else
        retryGo task check wait retries remaining (attempt + 1) (calls + 1)
          (if attempt < retries - 1 then
            (if wait then waits ++ [attempt] else waits)
          else waits)

/-- Embedding of `Exec.retry`. -/
def retry (retries : Nat) (task : Nat → Except ε α) (check : α → Bool)
    (wait : Bool) : RetryTrace ε α :=
  retryGo task check wait retries retries 0 0 []

/-- Outcome of `Exec.check_assert`: a normal return of (stdout, stderr),
the assertion failure, a propagated launch failure from `gather`, or the
unbound-local error the language raises when the loop body never ran and
the code after the loop reads the loop variables. -/
inductive CAOutcome where
  | ok (stdout stderr : String)
  | assertionError (msg : String)
  | launchError (e : String)
  | unboundLocal
  deriving DecidableEq

/-- Trace of one `Exec.check_assert` call: its outcome, the number of
gather invocations on the main command, the try_num values at which the
inter-attempt sleep ran, the try_num values at which the on_retry command
was gathered, and the (result, try_num) pair written into the final debug
log line (none when that line raised or was never reached). -/
structure CATrace where
  outcome : CAOutcome
  mainCalls : Nat
  sleepsAt : List Nat
  onRetryAt : List Nat
  finalLog : Option (Int × Nat)
  deriving DecidableEq

/-- The code after the loop of check_assert: the final debug log reads the
loop variables result and try_num, which are unbound when the loop body
never ran; then the assertion collaborator checks the last status and
either raises the assertion failure or the method returns the last
(stdout, stderr). -/
def checkAssertFinish (cwd cmdStr : String) (mainCalls : Nat)
    (sleepsAt onRetryAt : List Nat) (last : Option (GatherRes × Nat)) :
    CATrace :=
  match last with
  | none => ⟨CAOutcome.unboundLocal, mainCalls, sleepsAt, onRetryAt, none⟩
  | some (g, t) =>
    match assertionSuccess g.rc (errMsg cwd cmdStr g.stderr) with
    | Except.error m =>
      ⟨CAOutcome.assertionError m, mainCalls, sleepsAt, onRetryAt, some (g.rc, t)⟩
    | Except.ok _ =>
      ⟨CAOutcome.ok g.stdout g.stderr, mainCalls, sleepsAt, onRetryAt, some (g.rc, t)⟩

/-- The loop of check_assert, counting down the remaining iterations of
the loop over range(0, retries). `gatherCmd i` is what self.gather(cmd)
yields on attempt i; `onRetry` is, when an on_retry command was supplied,
what self.gather(on_retry) yields at each try_num. When try_num is
positive the iteration first logs the retry notice, sleeps pollrate
seconds, and runs the on_retry command, whose completed result is
discarded; a launch failure from either gather propagates and aborts
everything. `last` carries the loop variables (result, stdout, stderr)
and try_num from the most recent attempt. -/
def checkAssertGo (cwd cmdStr : String)
    (gatherCmd : Nat → Except String GatherRes)
    (onRetry : Option (Nat → Except String GatherRes)) :
    Nat → Nat → Nat → List Nat → List Nat → Option (GatherRes × Nat) →
    CATrace
  | 0, _, mainCalls, sleepsAt, onRetryAt, last =>
    checkAssertFinish cwd cmdStr mainCalls sleepsAt onRetryAt last
  | remaining + 1, tryNum, mainCalls, sleepsAt, onRetryAt, last =>
    let pre : Except String (List Nat × List Nat) :=
      if 0 < tryNum then
        match onRetry with
        | some f =>
          match f tryNum with
          | Except.error e => Except.error e
          | Except.ok _ => Except.ok (sleepsAt ++ [tryNum], onRetryAt ++ [tryNum])
        | none => Except.ok (sleepsAt ++ [tryNum], onRetryAt)
      else Except.ok (sleepsAt, onRetryAt)
    match pre with
    | Except.error e =>
      ⟨CAOutcome.launchError e, mainCalls, sleepsAt ++ [tryNum],
        onRetryAt ++ [tryNum], none⟩
    | Except.ok (s, o) =>
      match gatherCmd tryNum with
      | Except.error e => ⟨CAOutcome.launchError e, mainCalls + 1, s, o, none⟩
      | Except.ok g =>
        if g.rc = SUCCESS then
          checkAssertFinish cwd cmdStr (mainCalls + 1) s o (some (g, tryNum))
        else
          checkAssertGo cwd cmdStr gatherCmd onRetry remaining (tryNum + 1)
            (mainCalls + 1) s o (some (g, tryNum))

/-- Embedding of `Exec.check_assert`. The pollrate parameter only fixes
the duration of each sleep and leaves the trace unchanged. -/
def check_assert (cwd cmdStr : String) (retries : Nat) (pollrate : Nat)
    (gatherCmd : Nat → Except String GatherRes)
    (onRetry : Option (Nat → Except String GatherRes)) : CATrace :=
  checkAssertGo cwd cmdStr gatherCmd onRetry retries 0 0 [] [] none

/-- A gather behavior in which every call launches and completes: the
process always starts, though its exit status may well be non-zero. -/
def pureGather (f : Nat → GatherRes) : Nat → Except String GatherRes :=
  fun i => Except.ok (f i)

/-- The example command string of the spec: echo, space, single quote, a,
space, b, single quote, space, c. -/
def exampleCmd : String :=
  String.mk ['e', 'c', 'h', 'o', ' ', squoteChar, 'a', ' ', 'b', squoteChar, ' ', 'c']

/-- A sample process behavior: the executable false runs and exits with
status 1; any other argument vector fails to launch. -/
def procA : List String → String → Except String GatherRes := fun args cwd =>
  if args = ["false"] then Except.ok ⟨1, "", ""⟩
  else Except.error "No such file or directory"

example : shlexSplit exampleCmd = ["echo", "a b", "c"] := by decide

/-- If every attempt in the remaining window fails the predicate, the loop
makes one task call per iteration, records a wait for every attempt but
the last one overall, and gives up reporting the configured count. -/
theorem retryGo_all_fail (task : Nat → Except ε α) (check : α → Bool)
    (wait : Bool) (retries : Nat) :
    ∀ remaining attempt calls waits,
      attempt + remaining = retries →
      (∀ i, attempt ≤ i → i < retries → ∃ w, task i = Except.ok w ∧ check w = false) →
      retryGo task check wait retries remaining attempt calls waits =
        ⟨RetryOutcome.exhausted retries, calls + remaining,
          waits ++ (if wait then List.range' attempt (remaining - 1) else [])⟩ := by
  intro remaining
  induction remaining with
  | zero =>
    intro attempt calls waits hinv hfail
    cases wait <;> simp [retryGo]
  | succ r ih =>
    intro attempt calls waits hinv hfail
    obtain ⟨w, hw, hcw⟩ := hfail attempt (Nat.le_refl _) (by omega)
    rw [retryGo, hw]
    simp only [hcw, Bool.false_eq_true, if_false]
    cases r with
    | zero =>
      have hlt : ¬ attempt < retries - 1 := by omega
      rw [if_neg hlt]
      cases wait <;> simp [retryGo]
    | succ r' =>
      have hlt : attempt < retries - 1 := by omega
      rw [if_pos hlt]
      rw [ih (attempt + 1) (calls + 1) _ (by omega)
        (fun i hle hltr => hfail i (by omega) hltr)]
      have hr : r' + 1 + 1 - 1 = r' + 1 := rfl
      have hr2 : r' + 1 - 1 = r' := rfl
      cases wait with
      | false => simp; omega
      | true =>
        simp only [hr, hr2, if_pos, RetryTrace.mk.injEq]
        refine ⟨trivial, by omega, ?_⟩
        rw [List.append_assoc, List.range'_succ]
        simp

/-- If the first attempt accepted by the predicate is attempt s (0-based)
and the loop window reaches it, the loop returns that value after
s - attempt + 1 further task calls, recording a wait for every failed
attempt on the way and none at or after s. -/
theorem retryGo_success (task : Nat → Except ε α) (check : α → Bool)
    (wait : Bool) (retries s : Nat) (v : α)
    (hfail : ∀ i, i < s → ∃ w, task i = Except.ok w ∧ check w = false)
    (hs : task s = Except.ok v) (hv : check v = true) (hsr : s < retries) :
    ∀ remaining attempt calls waits,
      attempt + remaining = retries → attempt ≤ s →
      retryGo task check wait retries remaining attempt calls waits =
        ⟨RetryOutcome.ok v, calls + (s - attempt) + 1,
          waits ++ (if wait then List.range' attempt (s - attempt) else [])⟩ := by
  intro remaining
  induction remaining with
  | zero =>
    intro attempt calls waits hinv hle
    omega
  | succ r ih =>
    intro attempt calls waits hinv hle
    rcases Nat.eq_or_lt_of_le hle with heq | hlt
    · subst heq
      rw [retryGo, hs]
      simp only [hv, if_true]
      cases wait <;> simp
    · obtain ⟨w, hw, hcw⟩ := hfail attempt hlt
      rw [retryGo, hw]
      simp only [hcw, Bool.false_eq_true, if_false]
      have hc : attempt < retries - 1 := by omega
      rw [if_pos hc]
      rw [ih (attempt + 1) (calls + 1) _ (by omega) (by omega)]
      cases wait with
      | false => simp; omega
      | true =>
        simp only [if_pos, RetryTrace.mk.injEq]
        refine ⟨trivial, by omega, ?_⟩
        rw [List.append_assoc]
        have h2 : s - attempt = (s - (attempt + 1)) + 1 := by omega
        rw [h2, List.range'_succ]
        simp

/-- If every attempt before s fails the predicate and the task raises at
attempt s inside the window, the loop aborts there: the exception is
propagated as such, and no wait is recorded at or after s. -/
theorem retryGo_raised (task : Nat → Except ε α) (check : α → Bool)
    (wait : Bool) (retries s : Nat) (e : ε)
    (hfail : ∀ i, i < s → ∃ w, task i = Except.ok w ∧ check w = false)
    (hs : task s = Except.error e) (hsr : s < retries) :
    ∀ remaining attempt calls waits,
      attempt + remaining = retries → attempt ≤ s →
      retryGo task check wait retries remaining attempt calls waits =
        ⟨RetryOutcome.raised e, calls + (s - attempt) + 1,
          waits ++ (if wait then List.range' attempt (s - attempt) else [])⟩ := by
  intro remaining
  induction remaining with
  | zero =>
    intro attempt calls waits hinv hle
    omega
  | succ r ih =>
    intro attempt calls waits hinv hle
    rcases Nat.eq_or_lt_of_le hle with heq | hlt
    · subst heq
      rw [retryGo, hs]
      cases wait <;> simp
    · obtain ⟨w, hw, hcw⟩ := hfail attempt hlt
      rw [retryGo, hw]
      simp only [hcw, Bool.false_eq_true, if_false]
      have hc : attempt < retries - 1 := by omega
      rw [if_pos hc]
      rw [ih (attempt + 1) (calls + 1) _ (by omega) (by omega)]
      cases wait with
      | false => simp; omega
      | true =>
        simp only [if_pos, RetryTrace.mk.injEq]
        refine ⟨trivial, by omega, ?_⟩
        rw [List.append_assoc]
        have h2 : s - attempt = (s - (attempt + 1)) + 1 := by omega
        rw [h2, List.range'_succ]
        simp

example : retry 0 (fun i => (Except.ok i : Except String Nat)) (fun _ => false) true =
    ⟨RetryOutcome.exhausted 0, 0, []⟩ := rfl

/-- Splitting one element off a range glued to the front of it. -/
theorem append_singleton_range (l : List Nat) (a m : Nat) :
    (l ++ [a]) ++ List.range' (a + 1) m = l ++ List.range' a (m + 1) := by
  rw [List.append_assoc, List.range'_succ]
  simp

/-- Evaluating the post-loop code when the last attempt succeeded. -/
theorem checkAssertFinish_ok (cwd cmdStr : String) (mc : Nat)
    (sl orl : List Nat) (g : GatherRes) (t : Nat) (h : g.rc = 0) :
    checkAssertFinish cwd cmdStr mc sl orl (some (g, t)) =
      ⟨CAOutcome.ok g.stdout g.stderr, mc, sl, orl, some (g.rc, t)⟩ := by
  simp [checkAssertFinish, assertionSuccess, h]

/-- Evaluating the post-loop code when the last attempt failed. -/
theorem checkAssertFinish_err (cwd cmdStr : String) (mc : Nat)
    (sl orl : List Nat) (g : GatherRes) (t : Nat) (h : g.rc ≠ 0) :
    checkAssertFinish cwd cmdStr mc sl orl (some (g, t)) =
      ⟨CAOutcome.assertionError (errMsg cwd cmdStr g.stderr), mc, sl, orl,
        some (g.rc, t)⟩ := by
  simp [checkAssertFinish, assertionSuccess, h]

/-- One non-initial iteration of the check_assert loop in which the main
command fails: the sleep and the optional on_retry gather are recorded at
this try_num and the loop continues. -/
theorem checkAssertGo_step_fail (cwd cmdStr : String) (gRes : Nat → GatherRes)
    (onr : Option (Nat → GatherRes)) (r tryNum mc : Nat)
    (sl orl : List Nat) (last : Option (GatherRes × Nat))
    (htn : 0 < tryNum) (hf : (gRes tryNum).rc ≠ 0) :
    checkAssertGo cwd cmdStr (pureGather gRes) (Option.map pureGather onr)
        (r + 1) tryNum mc sl orl last =
      checkAssertGo cwd cmdStr (pureGather gRes) (Option.map pureGather onr)
        r (tryNum + 1) (mc + 1) (sl ++ [tryNum])
        (orl ++ (if onr.isSome then [tryNum] else [])) (some (gRes tryNum, tryNum)) := by
  cases onr <;>
    simp [checkAssertGo, pureGather, SUCCESS, htn, hf]

/-- One non-initial iteration of the check_assert loop in which the main
command succeeds: the inter-attempt step still runs first, then the loop
breaks and the post-loop code runs on this result. -/
theorem checkAssertGo_step_ok (cwd cmdStr : String) (gRes : Nat → GatherRes)
    (onr : Option (Nat → GatherRes)) (r tryNum mc : Nat)
    (sl orl : List Nat) (last : Option (GatherRes × Nat))
    (htn : 0 < tryNum) (hf : (gRes tryNum).rc = 0) :
    checkAssertGo cwd cmdStr (pureGather gRes) (Option.map pureGather onr)
        (r + 1) tryNum mc sl orl last =
      checkAssertFinish cwd cmdStr (mc + 1) (sl ++ [tryNum])
        (orl ++ (if onr.isSome then [tryNum] else []))
        (some (gRes tryNum, tryNum)) := by
  cases onr <;>
    simp [checkAssertGo, pureGather, SUCCESS, htn, hf]

/-- If every attempt at or after tryNum fails while the windowed loop
runs, the loop consumes the whole window, recording one main gather, one
sleep and one optional on_retry gather per iteration, and hands the last
recorded result to the post-loop code. -/
theorem checkAssertGo_pure_fail (cwd cmdStr : String) (gRes : Nat → GatherRes)
    (onr : Option (Nat → GatherRes)) :
    ∀ remaining tryNum mc sl orl g0 t0,
      1 ≤ tryNum →
      (∀ i, tryNum ≤ i → i < tryNum + remaining → (gRes i).rc ≠ 0) →
      checkAssertGo cwd cmdStr (pureGather gRes) (Option.map pureGather onr)
          remaining tryNum mc sl orl (some (g0, t0)) =
        checkAssertFinish cwd cmdStr (mc + remaining)
          (sl ++ List.range' tryNum remaining)
          (orl ++ (if onr.isSome then List.range' tryNum remaining else []))
          (if remaining = 0 then some (g0, t0)
            else some (gRes (tryNum + remaining - 1), tryNum + remaining - 1)) := by
  intro remaining
  induction remaining with
  | zero =>
    intro tryNum mc sl orl g0 t0 h1 hfail
    cases onr <;> simp [checkAssertGo]
  | succ r ih =>
    intro tryNum mc sl orl g0 t0 h1 hfail
    rw [checkAssertGo_step_fail cwd cmdStr gRes onr r tryNum mc sl orl _ (by omega)
      (hfail tryNum (Nat.le_refl _) (by omega))]
    rw [ih (tryNum + 1) (mc + 1) _ _ _ _ (by omega)
      (fun i hle hlt => hfail i (by omega) (by omega))]
    have hlast :
        (if r = 0 then some (gRes tryNum, tryNum)
          else some (gRes (tryNum + 1 + r - 1), tryNum + 1 + r - 1)) =
        (if r + 1 = 0 then some (g0, t0)
          else some (gRes (tryNum + (r + 1) - 1), tryNum + (r + 1) - 1)) := by
      cases r with
      | zero => simp
      | succ r' =>
        simp only [Nat.succ_ne_zero, if_neg, if_false]
        have : tryNum + 1 + (r' + 1) - 1 = tryNum + (r' + 1 + 1) - 1 := by omega
        rw [this]
    rw [hlast]
    have hsl : (sl ++ [tryNum]) ++ List.range' (tryNum + 1) r =
        sl ++ List.range' tryNum (r + 1) := by
      rw [List.append_assoc, List.range'_succ]
      simp
    rw [hsl]
    have hmc : mc + 1 + r = mc + (r + 1) := by omega
    rw [hmc]
    cases onr with
    | none => simp
    | some f =>
      have horl : (orl ++ [tryNum]) ++ List.range' (tryNum + 1) r =
          orl ++ List.range' tryNum (r + 1) := by
        rw [List.append_assoc, List.range'_succ]
        simp
      simp only [Option.isSome_some, if_pos]
      rw [horl]

/-- If the first attempt whose exit status is zero is attempt s and the
windowed loop reaches it, the loop breaks there: one main gather per
attempt up to s, one sleep and one optional on_retry gather per iteration,
and the post-loop code runs on the accepting result. -/
theorem checkAssertGo_pure_success (cwd cmdStr : String) (gRes : Nat → GatherRes)
    (onr : Option (Nat → GatherRes)) (s : Nat)
    (hfail : ∀ i, i < s → (gRes i).rc ≠ 0) (hs : (gRes s).rc = 0) :
    ∀ remaining tryNum mc sl orl last,
      1 ≤ tryNum → tryNum ≤ s → s < tryNum + remaining →
      checkAssertGo cwd cmdStr (pureGather gRes) (Option.map pureGather onr)
          remaining tryNum mc sl orl last =
        checkAssertFinish cwd cmdStr (mc + (s - tryNum) + 1)
          (sl ++ List.range' tryNum (s - tryNum + 1))
          (orl ++ (if onr.isSome then List.range' tryNum (s - tryNum + 1) else []))
          (some (gRes s, s)) := by
  intro remaining
  induction remaining with
  | zero =>
    intro tryNum mc sl orl last h1 hle hlt
    omega
  | succ r ih =>
    intro tryNum mc sl orl last h1 hle hlt
    rcases Nat.eq_or_lt_of_le hle with heq | hlt2
    · subst heq
      rw [checkAssertGo_step_ok cwd cmdStr gRes onr r tryNum mc sl orl last
        (by omega) hs]
      simp
    · rw [checkAssertGo_step_fail cwd cmdStr gRes onr r tryNum mc sl orl last
        (by omega) (hfail tryNum hlt2)]
      rw [ih (tryNum + 1) (mc + 1) _ _ _ (by omega) (by omega) (by omega)]
      have hmc : mc + 1 + (s - (tryNum + 1)) + 1 = mc + (s - tryNum) + 1 := by omega
      rw [hmc]
      have hsl : (sl ++ [tryNum]) ++ List.range' (tryNum + 1) (s - (tryNum + 1) + 1) =
          sl ++ List.range' tryNum (s - tryNum + 1) := by
        rw [append_singleton_range sl tryNum (s - (tryNum + 1) + 1)]
        have h2 : s - (tryNum + 1) + 1 + 1 = s - tryNum + 1 := by omega
        rw [h2]
      rw [hsl]
      cases onr with
      | none => simp
      | some f =>
        have horl : (orl ++ [tryNum]) ++ List.range' (tryNum + 1) (s - (tryNum + 1) + 1) =
            orl ++ List.range' tryNum (s - tryNum + 1) := by
          rw [append_singleton_range orl tryNum (s - (tryNum + 1) + 1)]
          have h2 : s - (tryNum + 1) + 1 + 1 = s - tryNum + 1 := by omega
          rw [h2]
        simp only [Option.isSome_some, if_pos]
        rw [horl]

/-- The first iteration of the check_assert loop, main command failing: no
sleep and no on_retry run before the very first attempt. -/
theorem checkAssertGo_step0_fail (cwd cmdStr : String) (gRes : Nat → GatherRes)
    (onr : Option (Nat → GatherRes)) (r mc : Nat) (sl orl : List Nat)
    (last : Option (GatherRes × Nat)) (hf : (gRes 0).rc ≠ 0) :
    checkAssertGo cwd cmdStr (pureGather gRes) (Option.map pureGather onr)
        (r + 1) 0 mc sl orl last =
      checkAssertGo cwd cmdStr (pureGather gRes) (Option.map pureGather onr)
        r 1 (mc + 1) sl orl (some (gRes 0, 0)) := by
  cases onr <;> simp [checkAssertGo, pureGather, SUCCESS, hf]

/-- The first iteration of the check_assert loop, main command succeeding:
the loop breaks at once, with no sleep and no on_retry run at all. -/
theorem checkAssertGo_step0_ok (cwd cmdStr : String) (gRes : Nat → GatherRes)
    (onr : Option (Nat → GatherRes)) (r mc : Nat) (sl orl : List Nat)
    (last : Option (GatherRes × Nat)) (hf : (gRes 0).rc = 0) :
    checkAssertGo cwd cmdStr (pureGather gRes) (Option.map pureGather onr)
        (r + 1) 0 mc sl orl last =
      checkAssertFinish cwd cmdStr (mc + 1) sl orl (some (gRes 0, 0)) := by
  cases onr <;> simp [checkAssertGo, pureGather, SUCCESS, hf]

/-- Trace of a whole check_assert call whose first accepted attempt is
attempt s (0-based): s + 1 main gathers, inter-attempt steps at try_num
1 .. s only, and the post-loop code sees the accepting result with
try_num = s. -/
theorem check_assert_pure_success (cwd cmdStr : String) (retries pollrate : Nat)
    (gRes : Nat → GatherRes) (onr : Option (Nat → GatherRes)) (s : Nat)
    (hfail : ∀ i, i < s → (gRes i).rc ≠ 0) (hs : (gRes s).rc = 0)
    (hsr : s < retries) :
    check_assert cwd cmdStr retries pollrate (pureGather gRes)
        (Option.map pureGather onr) =
      checkAssertFinish cwd cmdStr (s + 1) (List.range' 1 s)
        (if onr.isSome then List.range' 1 s else []) (some (gRes s, s)) := by
  unfold check_assert
  cases retries with
  | zero => omega
  | succ r =>
    cases Nat.eq_zero_or_pos s with
    | inl hs0 =>
      subst hs0
      rw [checkAssertGo_step0_ok cwd cmdStr gRes onr r 0 [] [] none hs]
      cases onr <;> simp
    | inr hs1 =>
      rw [checkAssertGo_step0_fail cwd cmdStr gRes onr r 0 [] [] none
        (hfail 0 hs1)]
      rw [checkAssertGo_pure_success cwd cmdStr gRes onr s hfail hs r 1 1 [] []
        (some (gRes 0, 0)) (Nat.le_refl _) hs1 (by omega)]
      have h1 : s - 1 + 1 = s := by omega
      have h2 : 1 + (s - 1) + 1 = s + 1 := by omega
      rw [h1, h2]
      simp

/-- Trace of a whole check_assert call in which no attempt succeeds:
retries main gathers, inter-attempt steps at try_num 1 .. retries - 1, and
the post-loop code sees the last failing result with try_num =
retries - 1. -/
theorem check_assert_pure_fail (cwd cmdStr : String) (retries pollrate : Nat)
    (gRes : Nat → GatherRes) (onr : Option (Nat → GatherRes))
    (h1 : 1 ≤ retries) (hfail : ∀ i, i < retries → (gRes i).rc ≠ 0) :
    check_assert cwd cmdStr retries pollrate (pureGather gRes)
        (Option.map pureGather onr) =
      checkAssertFinish cwd cmdStr retries (List.range' 1 (retries - 1))
        (if onr.isSome then List.range' 1 (retries - 1) else [])
        (some (gRes (retries - 1), retries - 1)) := by
  unfold check_assert
  cases retries with
  | zero => omega
  | succ r =>
    rw [checkAssertGo_step0_fail cwd cmdStr gRes onr r 0 [] [] none
      (hfail 0 (by omega))]
    rw [checkAssertGo_pure_fail cwd cmdStr gRes onr r 1 1 [] [] (gRes 0) 0
      (Nat.le_refl _) (fun i hle hlt => hfail i (by omega))]
    have hlast : (if r = 0 then some (gRes 0, 0)
        else some (gRes (1 + r - 1), 1 + r - 1)) =
        some (gRes (r + 1 - 1), r + 1 - 1) := by
      cases r with
      | zero => simp
      | succ r' =>
        have : 1 + (r' + 1) - 1 = r' + 1 + 1 - 1 := by omega
        simp [this]
    rw [hlast]
    have hmc : 1 + r = r + 1 := by omega
    have hr : r = r + 1 - 1 := rfl
    rw [hmc]
    cases onr <;> simp

/-- Whatever results the on_retry remediation command produces, as long as
it launches, the whole trace of check_assert is unchanged: same attempts,
same steps, same outcome. -/
theorem checkAssertGo_onRetry_irrelevant (cwd cmdStr : String)
    (gatherCmd : Nat → Except String GatherRes) (f g : Nat → GatherRes) :
    ∀ remaining tryNum mc sl orl last,
      checkAssertGo cwd cmdStr gatherCmd (some (pureGather f))
        remaining tryNum mc sl orl last =
      checkAssertGo cwd cmdStr gatherCmd (some (pureGather g))
        remaining tryNum mc sl orl last := by
  intro remaining
  induction remaining with
  | zero => intro tryNum mc sl orl last; rfl
  | succ r ih =>
    intro tryNum mc sl orl last
    simp only [checkAssertGo, pureGather]
    cases hgc : gatherCmd tryNum with
    | error e => by_cases htn : 0 < tryNum <;> simp [htn, hgc]
    | ok gg =>
      by_cases hrc : gg.rc = SUCCESS <;>
        by_cases htn : 0 < tryNum <;>
          simp [htn, hgc, hrc, ih]

/-- Once the loop body has run at least once, the loop variables are
bound: the final log line is reached with a recorded pair and the call
never ends in the unbound-local error (all gathers assumed to launch). -/
theorem checkAssertGo_pure_defined (cwd cmdStr : String) (gRes : Nat → GatherRes)
    (onr : Option (Nat → GatherRes)) :
    ∀ remaining tryNum mc sl orl g0 t0,
      (checkAssertGo cwd cmdStr (pureGather gRes) (Option.map pureGather onr)
          remaining tryNum mc sl orl (some (g0, t0))).finalLog ≠ none ∧
      (checkAssertGo cwd cmdStr (pureGather gRes) (Option.map pureGather onr)
          remaining tryNum mc sl orl (some (g0, t0))).outcome ≠
        CAOutcome.unboundLocal := by
  intro remaining
  induction remaining with
  | zero =>
    intro tryNum mc sl orl g0 t0
    by_cases hrc : g0.rc = 0
    · simp [checkAssertGo, checkAssertFinish_ok cwd cmdStr mc sl orl g0 t0 hrc]
    · simp [checkAssertGo, checkAssertFinish_err cwd cmdStr mc sl orl g0 t0 hrc]
  | succ r ih =>
    intro tryNum mc sl orl g0 t0
    by_cases hrc : (gRes tryNum).rc = 0
    · by_cases htn : 0 < tryNum
      · rw [checkAssertGo_step_ok cwd cmdStr gRes onr r tryNum mc sl orl _ htn hrc]
        rw [checkAssertFinish_ok cwd cmdStr _ _ _ _ _ hrc]
        simp
      · have htn0 : tryNum = 0 := by omega
        subst htn0
        rw [checkAssertGo_step0_ok cwd cmdStr gRes onr r mc sl orl _ hrc]
        rw [checkAssertFinish_ok cwd cmdStr _ _ _ _ _ hrc]
        simp
    · by_cases htn : 0 < tryNum
      · rw [checkAssertGo_step_fail cwd cmdStr gRes onr r tryNum mc sl orl _ htn hrc]
        exact ih (tryNum + 1) (mc + 1) _ _ _ _
      · have htn0 : tryNum = 0 := by omega
        subst htn0
        rw [checkAssertGo_step0_fail cwd cmdStr gRes onr r mc sl orl _ hrc]
        exact ih 1 (mc + 1) _ _ _ _

example :
    check_assert "/w" "cmd" 2 60 (pureGather fun _ => ⟨1, "", "boom"⟩) none =
      ⟨CAOutcome.assertionError (errMsg "/w" "cmd" "boom"), 2, [1], [], some (1, 1)⟩ := by
  decide

/-- C1: for every retries ≥ 1, for both retry and check_assert, if the
underlying operation first succeeds (predicate true, or exit status 0) on
attempt k with k ≤ retries, then exactly k attempts of the task and of the
command are made, and the inter-attempt step (the wait callback in retry;
the pollrate sleep plus optional on_retry remediation in check_assert)
runs exactly k - 1 times and is never run after the accepting attempt. -/
theorem first_success_attempt_counts (α : Type) (retries k : Nat)
    (task : Nat → Except String α) (check : α → Bool) (v : α)
    (cwd cmdStr : String) (pollrate : Nat)
    (gRes : Nat → GatherRes) (onr : Nat → GatherRes)
    (hk1 : 1 ≤ k) (hkr : k ≤ retries)
    (htfail : ∀ i, i < k - 1 → ∃ w, task i = Except.ok w ∧ check w = false)
    (htsucc : task (k - 1) = Except.ok v) (hcheck : check v = true)
    (hgfail : ∀ i, i < k - 1 → (gRes i).rc ≠ 0)
    (hgsucc : (gRes (k - 1)).rc = 0) :
    (retry retries task check true =
      ⟨RetryOutcome.ok v, k, List.range' 0 (k - 1)⟩) ∧
    (∀ i ∈ List.range' 0 (k - 1), i < k - 1) ∧
    (check_assert cwd cmdStr retries pollrate (pureGather gRes)
        (some (pureGather onr)) =
      ⟨CAOutcome.ok (gRes (k - 1)).stdout (gRes (k - 1)).stderr, k,
        List.range' 1 (k - 1), List.range' 1 (k - 1), some (0, k - 1)⟩) ∧
    (∀ t ∈ List.range' 1 (k - 1), t ≤ k - 1) := by
  refine ⟨?_, ?_, ?_, ?_⟩
  · unfold retry
    rw [retryGo_success task check true retries (k - 1) v htfail htsucc hcheck
      (by omega) retries 0 0 [] (by omega) (by omega)]
    have h1 : k - 1 + 1 = k := by omega
    simp [h1]
  · intro i hi
    have := List.mem_range'_1.mp hi
    omega
  · have honr : (some (pureGather onr)) =
        Option.map pureGather (some onr) := rfl
    rw [honr]
    rw [check_assert_pure_success cwd cmdStr retries pollrate gRes (some onr)
      (k - 1) hgfail hgsucc (by omega)]
    rw [checkAssertFinish_ok cwd cmdStr _ _ _ _ _ hgsucc]
    have hk : k - 1 + 1 = k := by omega
    simp [hk, hgsucc]
  · intro t ht
    have := List.mem_range'_1.mp ht
    omega

/-- C1 witness: retries = 3, first success on attempt 2 for both loops. -/
theorem first_success_attempt_counts_witness :
    (retry 3 (fun i => (Except.ok (decide (i = 1)) : Except String Bool))
        (fun b => b) true = ⟨RetryOutcome.ok true, 2, List.range' 0 1⟩) ∧
    (∀ i ∈ List.range' 0 1, i < 1) ∧
    (check_assert "/w" "c" 3 0
        (pureGather fun i => ⟨if i = 0 then 1 else 0, "so", "se"⟩)
        (some (pureGather fun _ => ⟨1, "", ""⟩)) =
      ⟨CAOutcome.ok "so" "se", 2, List.range' 1 1, List.range' 1 1,
        some (0, 1)⟩) ∧
    (∀ t ∈ List.range' 1 1, t ≤ 1) :=
  first_success_attempt_counts Bool 3 2
    (fun i => Except.ok (decide (i = 1))) (fun b => b) true "/w" "c" 0
    (fun i => ⟨if i = 0 then 1 else 0, "so", "se"⟩) (fun _ => ⟨1, "", ""⟩)
    (by decide) (by decide) (by decide) (by decide) (by decide) (by decide)
    (by decide)

/-- C2 counterexample: at retries = 2 with a command that always exits 1,
check_assert does raise the assertion failure, but the only attempt count
it reports anywhere — the try count in its final log line — is 1, not 2,
and the failure message itself carries no count at all. -/
theorem exhaustion_count_counterexample :
    (check_assert "/w" "false" 2 0
        (pureGather fun _ => ⟨1, "", "boom"⟩) none).finalLog = some (1, 1) ∧
    (check_assert "/w" "false" 2 0
        (pureGather fun _ => ⟨1, "", "boom"⟩) none).outcome =
      CAOutcome.assertionError (errMsg "/w" "false" "boom") ∧
    (1 : Nat) ≠ 2 := by decide

/-- C2 amended: for every retries ≥ 1, if no attempt succeeds, exactly
retries attempts are made and the inter-attempt step runs exactly
retries - 1 times in both loops; retry raises RetryException reporting
exactly retries, while check_assert raises the assertion failure carrying
the directory, command and last stderr but no attempt count, its final
log line reporting retries - 1. -/
theorem exhaustion_behavior (α : Type) (retries : Nat)
    (task : Nat → Except String α) (check : α → Bool)
    (cwd cmdStr : String) (pollrate : Nat) (gRes : Nat → GatherRes)
    (onr : Nat → GatherRes) (h1 : 1 ≤ retries)
    (htfail : ∀ i, i < retries → ∃ w, task i = Except.ok w ∧ check w = false)
    (hgfail : ∀ i, i < retries → (gRes i).rc ≠ 0) :
    (retry retries task check true =
      ⟨RetryOutcome.exhausted retries, retries, List.range' 0 (retries - 1)⟩) ∧
    (check_assert cwd cmdStr retries pollrate (pureGather gRes)
        (some (pureGather onr)) =
      ⟨CAOutcome.assertionError (errMsg cwd cmdStr (gRes (retries - 1)).stderr),
        retries, List.range' 1 (retries - 1), List.range' 1 (retries - 1),
        some ((gRes (retries - 1)).rc, retries - 1)⟩) := by
  constructor
  · unfold retry
    rw [retryGo_all_fail task check true retries retries 0 0 []
      (by omega) (fun i h1 h2 => htfail i h2)]
    simp
  · have honr : (some (pureGather onr)) =
        Option.map pureGather (some onr) := rfl
    rw [honr]
    rw [check_assert_pure_fail cwd cmdStr retries pollrate gRes (some onr)
      h1 hgfail]
    rw [checkAssertFinish_err cwd cmdStr _ _ _ _ _
      (hgfail (retries - 1) (by omega))]
    simp

/-- C2 amended witness: retries = 2, everything failing. -/
theorem exhaustion_behavior_witness :
    (retry 2 (fun i => (Except.ok false : Except String Bool))
        (fun b => b) true =
      ⟨RetryOutcome.exhausted 2, 2, List.range' 0 1⟩) ∧
    (check_assert "/w" "c" 2 0 (pureGather fun _ => ⟨1, "", "boom"⟩)
        (some (pureGather fun _ => ⟨1, "", ""⟩)) =
      ⟨CAOutcome.assertionError (errMsg "/w" "c" "boom"), 2,
        List.range' 1 1, List.range' 1 1, some (1, 1)⟩) :=
  exhaustion_behavior Bool 2 (fun i => Except.ok false) (fun b => b)
    "/w" "c" 0 (fun _ => ⟨1, "", "boom"⟩) (fun _ => ⟨1, "", ""⟩)
    (by decide) (by decide) (by decide)

/-- C3: for every check_assert call with retries ≥ 1 whose gathers all
launch: if every attempt exits non-zero, the final recorded status is
non-zero and the call raises a failure whose message embeds the working
directory, the original command and the last captured stderr; if the
first accepted attempt is attempt k, the final recorded status is zero
and the call returns the (stdout, stderr) of that accepting attempt. -/
theorem check_assert_raise_or_return (cwd cmdStr : String)
    (retries pollrate : Nat) (gRes : Nat → GatherRes)
    (onr : Option (Nat → GatherRes)) (h1 : 1 ≤ retries) :
    ((∀ i, i < retries → (gRes i).rc ≠ 0) →
      (check_assert cwd cmdStr retries pollrate (pureGather gRes)
          (Option.map pureGather onr)).outcome =
        CAOutcome.assertionError
          (errMsg cwd cmdStr (gRes (retries - 1)).stderr)) ∧
    (∀ k, 1 ≤ k → k ≤ retries → (∀ i, i < k - 1 → (gRes i).rc ≠ 0) →
      (gRes (k - 1)).rc = 0 →
      (check_assert cwd cmdStr retries pollrate (pureGather gRes)
          (Option.map pureGather onr)).outcome =
        CAOutcome.ok (gRes (k - 1)).stdout (gRes (k - 1)).stderr) := by
  constructor
  · intro hgfail
    rw [check_assert_pure_fail cwd cmdStr retries pollrate gRes onr h1 hgfail]
    rw [checkAssertFinish_err cwd cmdStr _ _ _ _ _
      (hgfail (retries - 1) (by omega))]
  · intro k hk1 hkr hgfail hgsucc
    rw [check_assert_pure_success cwd cmdStr retries pollrate gRes onr
      (k - 1) hgfail hgsucc (by omega)]
    rw [checkAssertFinish_ok cwd cmdStr _ _ _ _ _ hgsucc]

/-- C3 witness: a single successful attempt returns its streams. -/
theorem check_assert_raise_or_return_witness :
    (check_assert "/w" "c" 1 0 (pureGather fun _ => ⟨0, "o", "e"⟩)
        none).outcome = CAOutcome.ok "o" "e" :=
  (check_assert_raise_or_return "/w" "c" 1 0 (fun _ => ⟨0, "o", "e"⟩) none
    (by decide)).2 1 (by decide) (by decide) (by decide) (by decide)

/-- C4 counterexample: with a retry budget of 3 and a command that
succeeds at once, check_assert makes exactly one attempt but its final
log line reports 0 tries (the leaked 0-based loop index), not 1 as the
claim requires. -/
theorem final_log_count_counterexample :
    (check_assert "/w" "c" 3 0
        (pureGather fun _ => ⟨0, "o", "e"⟩) none).mainCalls = 1 ∧
    (check_assert "/w" "c" 3 0
        (pureGather fun _ => ⟨0, "o", "e"⟩) none).finalLog = some (0, 0) ∧
    (0 : Nat) ≠ 1 := by decide

/-- C4 amended: when check_assert exits its loop early on success at
attempt k, the count written into the final debug log is the leaked
0-based loop index k - 1, that is the actual number of attempts minus
one, and not the configured retry budget; in particular success on the
first attempt logs a count of 0. -/
theorem final_log_count (cwd cmdStr : String) (retries pollrate k : Nat)
    (gRes : Nat → GatherRes) (onr : Option (Nat → GatherRes))
    (hk1 : 1 ≤ k) (hkr : k ≤ retries)
    (hgfail : ∀ i, i < k - 1 → (gRes i).rc ≠ 0)
    (hgsucc : (gRes (k - 1)).rc = 0) :
    (check_assert cwd cmdStr retries pollrate (pureGather gRes)
        (Option.map pureGather onr)).mainCalls = k ∧
    (check_assert cwd cmdStr retries pollrate (pureGather gRes)
        (Option.map pureGather onr)).finalLog = some (0, k - 1) := by
  rw [check_assert_pure_success cwd cmdStr retries pollrate gRes onr
    (k - 1) hgfail hgsucc (by omega)]
  rw [checkAssertFinish_ok cwd cmdStr _ _ _ _ _ hgsucc]
  have hk : k - 1 + 1 = k := by omega
  simp [hk, hgsucc]

/-- C4 amended witness: budget 3, success on the first attempt, log 0. -/
theorem final_log_count_witness :
    (check_assert "/w" "c" 3 0 (pureGather fun _ => ⟨0, "o", "e"⟩)
        none).mainCalls = 1 ∧
    (check_assert "/w" "c" 3 0 (pureGather fun _ => ⟨0, "o", "e"⟩)
        none).finalLog = some (0, 0) :=
  final_log_count "/w" "c" 3 0 1 (fun _ => ⟨0, "o", "e"⟩) none
    (by decide) (by decide) (by decide) (by decide)

/-- C5: the results the on_retry remediation command produces — in
particular non-zero exit statuses — never change the trace of
check_assert in any way: not the number of attempts on the main command,
not the retry sequence, and not the outcome, so they never appear in the
failure it raises. -/
theorem on_retry_failures_tolerated (cwd cmdStr : String)
    (retries pollrate : Nat) (gatherCmd : Nat → Except String GatherRes)
    (f g : Nat → GatherRes) :
    check_assert cwd cmdStr retries pollrate gatherCmd
        (some (pureGather f)) =
      check_assert cwd cmdStr retries pollrate gatherCmd
        (some (pureGather g)) :=
  checkAssertGo_onRetry_irrelevant cwd cmdStr gatherCmd f g retries 0 0 [] [] none

/-- C5 witness: a failing on_retry command and a clean one yield the
same trace, attempt for attempt. -/
theorem on_retry_failures_tolerated_witness :
    check_assert "/w" "c" 3 0 (pureGather fun _ => ⟨1, "", "x"⟩)
        (some (pureGather fun _ => ⟨1, "", "bad"⟩)) =
      check_assert "/w" "c" 3 0 (pureGather fun _ => ⟨1, "", "x"⟩)
        (some (pureGather fun _ => ⟨0, "", ""⟩)) :=
  on_retry_failures_tolerated "/w" "c" 3 0
    (pureGather fun _ => ⟨1, "", "x"⟩) (fun _ => ⟨1, "", "bad"⟩)
    (fun _ => ⟨0, "", ""⟩)

/-- C6: if the process launches, runs and exits, gather returns the
(status, stdout, stderr) triple normally whatever the exit status, never
raising on a non-zero exit; gather raises — the launch failure
propagating to its caller, with no retry — exactly when the process
behavior says the executable could not be located or started. -/
theorem gather_exit_status_transparent
    (proc : List String → String → Except String GatherRes)
    (cwd : String) (cmd : Command) :
    (∀ rc out err, proc (normalize cmd) cwd = Except.ok ⟨rc, out, err⟩ →
      gather proc cwd cmd = Except.ok ⟨rc, out, err⟩) ∧
    (∀ e, gather proc cwd cmd = Except.error e ↔
      proc (normalize cmd) cwd = Except.error e) :=
  ⟨fun rc out err h => h, fun e => Iff.rfl⟩

/-- C6 witness: the string command false runs, exits 1, and gather
returns that status normally. -/
theorem gather_exit_status_transparent_witness :
    gather procA "/w" (Command.str "false") = Except.ok ⟨1, "", ""⟩ :=
  (gather_exit_status_transparent procA "/w" (Command.str "false")).1
    1 "" "" (by decide)

/-- C7: a list command is used as the argument vector unchanged; a string
command is normalized by POSIX shell-word splitting, so that the string
echo < > a b < > c (with single quotes around a b) yields the argument
sequence echo, a b, c; and gather always hands the normalized vector
directly to the process launch — no shell ever interprets the command. -/
theorem command_tokenization
    (proc : List String → String → Except String GatherRes) (cwd : String) :
    (∀ l, normalize (Command.args l) = l) ∧
    (normalize (Command.str exampleCmd) = ["echo", "a b", "c"]) ∧
    (∀ cmd, gather proc cwd cmd = proc (normalize cmd) cwd) :=
  ⟨fun l => rfl, by decide, fun cmd => rfl⟩

/-- C7 witness: the spec example string, tokenized. -/
theorem command_tokenization_witness :
    normalize (Command.str exampleCmd) = ["echo", "a b", "c"] :=
  (command_tokenization procA "/w").2.1

/-- C8: retry with retries = 0 never calls the task, never calls the wait
callback, and raises the exhaustion failure at once, reporting the
configured count of 0. -/
theorem retry_zero_attempts (α : Type) (task : Nat → Except String α)
    (check : α → Bool) (wait : Bool) :
    retry 0 task check wait = ⟨RetryOutcome.exhausted 0, 0, []⟩ := rfl

/-- C8 witness: a concrete degenerate call. -/
theorem retry_zero_attempts_witness :
    retry 0 (fun i => (Except.ok i : Except String Nat)) (fun _ => true) true =
      ⟨RetryOutcome.exhausted 0, 0, []⟩ :=
  retry_zero_attempts Nat (fun i => Except.ok i) (fun _ => true) true

/-- C9: check_assert is total only under retries ≥ 1: when every gather
launches, any retries ≥ 1 reaches the final log line with the last
attempt recorded and never ends in the unbound-local error, while
retries = 0 never runs the loop body and fails with the unbound-local
error at the final logging step, not with the documented assertion
failure. -/
theorem check_assert_requires_positive_retries (cwd cmdStr : String)
    (pollrate : Nat) (gRes : Nat → GatherRes)
    (onr : Option (Nat → GatherRes)) :
    (∀ retries, 1 ≤ retries →
      (check_assert cwd cmdStr retries pollrate (pureGather gRes)
          (Option.map pureGather onr)).finalLog ≠ none ∧
      (check_assert cwd cmdStr retries pollrate (pureGather gRes)
          (Option.map pureGather onr)).outcome ≠ CAOutcome.unboundLocal) ∧
    ((check_assert cwd cmdStr 0 pollrate (pureGather gRes)
        (Option.map pureGather onr)).outcome = CAOutcome.unboundLocal ∧
      (check_assert cwd cmdStr 0 pollrate (pureGather gRes)
        (Option.map pureGather onr)).finalLog = none ∧
      ∀ msg, (check_assert cwd cmdStr 0 pollrate (pureGather gRes)
        (Option.map pureGather onr)).outcome ≠ CAOutcome.assertionError msg) := by
  constructor
  · intro retries hr
    cases retries with
    | zero => omega
    | succ r =>
      unfold check_assert
      by_cases hrc : (gRes 0).rc = 0
      · rw [checkAssertGo_step0_ok cwd cmdStr gRes onr r 0 [] [] none hrc]
        rw [checkAssertFinish_ok cwd cmdStr _ _ _ _ _ hrc]
        simp
      · rw [checkAssertGo_step0_fail cwd cmdStr gRes onr r 0 [] [] none hrc]
        exact checkAssertGo_pure_defined cwd cmdStr gRes onr r 1 1 [] []
          (gRes 0) 0
  · exact ⟨rfl, rfl, fun msg h => by simp [check_assert, checkAssertGo,
      checkAssertFinish] at h⟩

/-- C9 witness: one successful attempt under retries = 1 is defined. -/
theorem check_assert_requires_positive_retries_witness :
    (check_assert "/w" "c" 1 0 (pureGather fun _ => ⟨0, "o", "e"⟩)
        none).finalLog ≠ none ∧
    (check_assert "/w" "c" 1 0 (pureGather fun _ => ⟨0, "o", "e"⟩)
        none).outcome ≠ CAOutcome.unboundLocal :=
  (check_assert_requires_positive_retries "/w" "c" 0
    (fun _ => ⟨0, "o", "e"⟩) none).1 1 (by decide)

/-- C10: if the task raises on some attempt that the loop reaches, retry
propagates that exception immediately: no further attempts are made, the
wait callback is not invoked after the raising attempt, and the outcome
is the propagated exception, not a RetryException. -/
theorem retry_propagates_task_exception (α : Type) (retries s : Nat)
    (task : Nat → Except String α) (check : α → Bool) (e : String)
    (hfail : ∀ i, i < s → ∃ w, task i = Except.ok w ∧ check w = false)
    (hs : task s = Except.error e) (hsr : s < retries) :
    retry retries task check true =
      ⟨RetryOutcome.raised e, s + 1, List.range' 0 s⟩ ∧
    (∀ i ∈ List.range' 0 s, i < s) := by
  constructor
  · unfold retry
    rw [retryGo_raised task check true retries s e hfail hs hsr
      retries 0 0 [] (by omega) (by omega)]
    simp
  · intro i hi
    have := List.mem_range'_1.mp hi
    omega

/-- C10 witness: the task raises on its second call under a budget of 3;
exactly two calls are made and one wait runs. -/
theorem retry_propagates_task_exception_witness :
    retry 3 (fun i => if i = 0 then Except.ok false else Except.error "boom")
        (fun b => b) true =
      ⟨RetryOutcome.raised "boom", 2, List.range' 0 1⟩ ∧
    (∀ i ∈ List.range' 0 1, i < 1) :=
  retry_propagates_task_exception Bool 3 1
    (fun i => if i = 0 then Except.ok false else Except.error "boom")
    (fun b => b) "boom" (by decide) (by decide) (by decide)

end Exectools
